import Mathlib

/-!
Verification of the Link-Content-Scraper crawl engine (`main.py`).

The embedding below translates the pure control flow and counter
bookkeeping of the source into Lean. Strings are modelled as `List Char`
(Python `str`), machine-independent. Network I/O is modelled by passing a
scripted response function (attempt index to HTTP response); sleeps are
recorded as durations instead of elapsing. Elided, with notes at each
site: logging, the arXiv URL transformation and timeout selection (they
affect only the outgoing request target and transport timeout, never the
counters, retry logic, or returned content), unicode NFKD normalization
(it rewrites characters before the ASCII and safe-character filters that
dominate the proved properties), and actual file-system writes (the
archive is represented by the list of entries that would be written).
-/

/-! ### Python string primitives -/

/-- The whitespace characters stripped by Python `str.strip()` (ASCII part). -/
def isPySpace (c : Char) : Bool :=
  c = ' ' || c = '\t' || c = '\n' || c = '\r' || c = '\x0b' || c = '\x0c'

/-- Drop trailing characters satisfying `p` (Python `str.rstrip`). -/
def dropTrailing (p : Char → Bool) (l : List Char) : List Char :=
  (l.reverse.dropWhile p).reverse

/-- Python `str.strip()` restricted to a character predicate. -/
def pyStripP (p : Char → Bool) (l : List Char) : List Char :=
  dropTrailing p (l.dropWhile p)

/-- Python `str.strip()` (whitespace on both ends). -/
def pyStrip (l : List Char) : List Char := pyStripP isPySpace l

/-- Python `str.lower()` (ASCII case fold, as used on URLs here). -/
def pyLower (l : List Char) : List Char := l.map Char.toLower

/-- Python substring test `needle in hay`. -/
def containsSub (needle hay : List Char) : Bool :=
  hay.tails.any (fun t => needle.isPrefixOf t)

/-- Decimal digit string of a natural number, with explicit fuel bounding
the number of digits. Models Python `str(n)`. -/
def natStrAux : Nat → Nat → List Char
  | 0, _ => []
  | fuel + 1, n =>
    if n < 10 then [Char.ofNat (48 + n)]
    else natStrAux fuel (n / 10) ++ [Char.ofNat (48 + n % 10)]

/-- Python `str(n)` for a natural number. The fuel 32 is exact for every
`n < 10 ^ 32`; the only numbers rendered by the source are CPython string
hashes, which are 64-bit. -/
def natStr (n : Nat) : List Char := natStrAux 32 n

/-- Python `str(i)` for an integer (leading minus sign when negative). -/
def intStr (i : Int) : List Char :=
  if i < 0 then '-' :: natStr i.natAbs else natStr i.natAbs

/-! ### Constants (`main.py` lines 24-30) -/

def RATE_LIMIT : Nat := 15
def RATE_PERIOD : Nat := 60
def MAX_RETRIES : Nat := 3
def RETRY_DELAY : Nat := 5

/-! ### `should_skip_url` (`main.py` lines 121-136)

The skip patterns are regexes without metacharacters other than the
escaped dot and the `$` anchor: the five extension patterns are
end-anchored literals and the domain patterns are plain substrings, so
`re.search` reduces to suffix / substring tests on `url.lower()`. -/

def should_skip_url (url : List Char) : Bool :=
  let l := pyLower url
  ".png".data.isSuffixOf l || ".jpg".data.isSuffixOf l ||
  ".jpeg".data.isSuffixOf l || ".gif".data.isSuffixOf l ||
  ".webp".data.isSuffixOf l ||
  containsSub "twitter.com".data l || containsSub "x.com".data l ||
  containsSub "linkedin.com".data l || containsSub "facebook.com".data l ||
  containsSub "instagram.com".data l || containsSub "youtube.com".data l ||
  containsSub "substackcdn.com".data l

/-! ### Content validation predicates

Fetch-time rejection (`main.py` lines 260-272) and the archival
re-validation (`main.py` lines 346-353). Both reject when the content is
under 50 characters, has fewer than 3 newlines, or consists solely of
metadata-prefixed lines; the fetch-time pass measures `len(content)` on
the already-stripped response text while the archival pass measures
`len(content.strip())`. -/

/-- The metadata line heads of `main.py` lines 270 and 349. -/
def metaHeads : List (List Char) :=
  ["# Original URL:".data, "Title:".data, "URL Source:".data, "Markdown Content:".data]

/-- `all(line.startswith((...)) for line in lines if line.strip())`. -/
def metaOnly (c : List Char) : Bool :=
  (c.splitOn '\n').all
    (fun line => (pyStrip line).isEmpty || metaHeads.any (fun h => h.isPrefixOf line))

/-- Fetch-time rejection applied to the stripped response text
(`main.py` lines 265-272). -/
def fetchReject (c : List Char) : Bool :=
  decide (c.length < 50) || decide (c.count '\n' < 3) || metaOnly c

/-- Archival-time rejection applied to a stored content string
(`main.py` lines 347-350). -/
def archiveReject (c : List Char) : Bool :=
  decide ((pyStrip c).length < 50) || decide (c.count '\n' < 3) || metaOnly c

/-! ### Sanity examples (concrete evaluations of the embedding) -/

example : should_skip_url "https://twitter.com/foo".data = true := by decide
example : should_skip_url "https://example.org/a".data = false := by decide
example : pyStrip "  ab  ".data = "ab".data := by decide
example : natStr 12345678 = "12345678".data := by decide
example : intStr (-45) = "-45".data := by decide
example : containsSub "429".data "Failed to get content: 429".data = true := by decide
example : containsSub "429".data "Failed to get content: 500".data = false := by decide
example : metaOnly "# Original URL: x\nTitle: y\n".data = true := by decide

/-! ### Job progress record (`main.py` lines 203-213)

The `task`, `cancelled` and `current_url` fields are omitted: the first
two are never read by the crawl path under `src/`, and `current_url`
carries no counter, so snapshots taken at its mutations coincide with the
preceding counter snapshot. -/

structure Progress where
  total : Nat
  processed : Nat
  potential_successful : Nat
  skipped : Nat
  failed : Nat
  successful : Nat
deriving Repr, DecidableEq

/-- The defaultdict initial record (`main.py` lines 203-213). -/
def Progress.init : Progress := ⟨0, 0, 0, 0, 0, 0⟩

/-! ### `get_markdown_content` (`main.py` lines 226-305)

Network I/O is scripted: `resp i` is the HTTP response to the `i`-th
request issued for this URL. Sleeps are recorded, not elapsed. The arXiv
URL transformation (lines 236-239) and the PDF timeout selection
(lines 242-244) are elided: they only choose the outgoing request target
and transport timeout and touch no counter, retry decision, or returned
content. `snaps` records the progress record after each counter
mutation, in mutation order. -/

structure Resp where
  status : Nat
  body : List Char
deriving Repr

structure FetchOut where
  url : List Char
  content : List Char
  prog : Progress
  snaps : List Progress
  requests : Nat
  sleeps : List Nat
deriving Repr

/-- Exception message of `main.py` line 266. -/
def tooShortMsg : List Char := "Retrieved content too short or empty".data

/-- Exception message of `main.py` line 272. -/
def metaOnlyMsg : List Char := "Retrieved content contains only metadata".data

/-- Exception message of `main.py` lines 288-289. -/
def statusMsg (code : Nat) : List Char :=
  "Failed to get content: ".data ++ natStr code

/-- The retry test of `main.py` line 296:
`"429" in str(e) or "too short" in str(e) or "only metadata" in str(e)`. -/
def retryTrigger (msg : List Char) : Bool :=
  containsSub "429".data msg || containsSub "too short".data msg ||
  containsSub "only metadata".data msg

/-- Terminal failure bookkeeping of `main.py` lines 303-305. -/
def finishFailed (url : List Char) (p : Progress) (snaps : List Progress)
    (reqs : Nat) (sleeps : List Nat) : FetchOut :=
  let p1 := { p with processed := p.processed + 1 }
  let p2 := { p1 with failed := p1.failed + 1 }
  ⟨url, [], p2, snaps ++ [p1, p2], reqs, sleeps⟩

/-- The `while retries <= MAX_RETRIES` loop of `main.py` lines 250-301.
The fuel argument models the loop guard: every `continue` in the source
increments `retries` by exactly one after checking
`retries <= MAX_RETRIES`, so calling with `fuel = MAX_RETRIES + 1 -
retries` makes the `0` case coincide with the guard failing. -/
def fetchLoop (resp : Nat → Resp) (url : List Char) :
    Nat → Nat → Nat → List Nat → Progress → List Progress → FetchOut
  | 0, _, reqs, sleeps, p, snaps => finishFailed url p snaps reqs sleeps
  | fuel + 1, retries, reqs, sleeps, p, snaps =>
    let r := resp reqs
    if r.status = 200 then
      -- line 261: content = response.text.strip()
      let content := pyStrip r.body
      if content.length < 50 ∨ content.count '\n' < 3 then
        -- raise "too short" (line 266); except: retries += 1, trigger matches
        if retries + 1 ≤ MAX_RETRIES then
          fetchLoop resp url fuel (retries + 1) (reqs + 1)
            (sleeps ++ [RETRY_DELAY * (retries + 1)]) p snaps
        else finishFailed url p snaps (reqs + 1) sleeps
      else if metaOnly content then
        -- raise "only metadata" (line 272); except: same path as above
        if retries + 1 ≤ MAX_RETRIES then
          fetchLoop resp url fuel (retries + 1) (reqs + 1)
            (sleeps ++ [RETRY_DELAY * (retries + 1)]) p snaps
        else finishFailed url p snaps (reqs + 1) sleeps
      else
        -- lines 276-278: processed += 1; potential_successful += 1; return
        let p1 := { p with processed := p.processed + 1 }
        let p2 := { p1 with potential_successful := p1.potential_successful + 1 }
        ⟨url, content, p2, snaps ++ [p1, p2], reqs + 1, sleeps⟩
    else if r.status = 429 then
      -- lines 280-286: retries += 1; if retries <= MAX_RETRIES: sleep; continue
      if retries + 1 ≤ MAX_RETRIES then
        fetchLoop resp url fuel (retries + 1) (reqs + 1)
          (sleeps ++ [RETRY_DELAY * (retries + 1)]) p snaps
      else
        -- fall through to lines 288-289: raise; except: retries += 1 again,
        -- now past the ceiling, so break (lines 293-301)
        finishFailed url p snaps (reqs + 1) sleeps
    else
      -- lines 288-289: raise "Failed to get content: {code}"; except
      -- (lines 291-301): retries += 1; retry only when within the ceiling
      -- AND the message matches a retry trigger, else break
      if retries + 1 ≤ MAX_RETRIES ∧ retryTrigger (statusMsg r.status) = true then
        fetchLoop resp url fuel (retries + 1) (reqs + 1)
          (sleeps ++ [RETRY_DELAY * (retries + 1)]) p snaps
      else finishFailed url p snaps (reqs + 1) sleeps

/-- `get_markdown_content` (`main.py` lines 226-305). -/
def get_markdown_content (resp : Nat → Resp) (url : List Char) (p : Progress) :
    FetchOut :=
  if should_skip_url url then
    -- lines 230-233: processed += 1; skipped += 1; return url, ""
    let p1 := { p with processed := p.processed + 1 }
    let p2 := { p1 with skipped := p1.skipped + 1 }
    ⟨url, [], p2, [p1, p2], 0, []⟩
  else
    fetchLoop resp url (MAX_RETRIES + 1) 0 0 [] p []

/-! ### Fetch model sanity checks -/

example :
    (get_markdown_content (fun _ => ⟨500, []⟩) "https://example.org/a".data
      Progress.init).requests = 1 := by decide

example :
    (get_markdown_content (fun _ => ⟨429, []⟩) "https://example.org/a".data
      Progress.init).requests = 4 := by decide

example :
    (get_markdown_content (fun _ => ⟨429, []⟩) "https://example.org/a".data
      Progress.init).sleeps = [5, 10, 15] := by decide

example :
    (get_markdown_content (fun _ => ⟨200, "x\n\n\ny".data ++ List.replicate 50 'z'⟩)
      "https://example.org/a".data Progress.init).prog.potential_successful = 1 := by
  decide

/-! ### `create_safe_filename` (`main.py` lines 90-119)

`title` is a `List Char`; the empty list models both `None` and `""`
(both falsy at line 92). CPython's salted `hash(url)` is opaque, so it is
passed in as the integer `urlHash`. The NFKD normalization of line 98 is
elided (it rewrites characters ahead of the ASCII filter of line 99,
which is modelled); `\w` on the resulting ASCII text is
`[A-Za-z0-9_]`. -/

/-- A `\w` character after the ASCII projection. -/
def isWordChar (c : Char) : Bool := c.isAlphanum || c = '_'

/-- `title.encode('ascii', 'ignore').decode('ascii')` (line 99). -/
def asciiIgnore (l : List Char) : List Char := l.filter (fun c => c.val < 128)

/-- `re.sub(r'[^\w\s-]', '', title)` (line 102). -/
def keepSafe (l : List Char) : List Char :=
  l.filter (fun c => isWordChar c || isPySpace c || c = '-')

/-- A character collapsed by `re.sub(r'[-\s]+', '-', ...)` (line 103). -/
def isDashSpace (c : Char) : Bool := c = '-' || isPySpace c

/-- Worker for `re.sub(r'[-\s]+', '-', ...)`: the Bool records whether we
are inside a run already replaced by a single hyphen. -/
def collapseGo : Bool → List Char → List Char
  | _, [] => []
  | inRun, c :: rest =>
    if isDashSpace c then
      if inRun then collapseGo true rest else '-' :: collapseGo true rest
    else c :: collapseGo false rest

/-- `re.sub(r'[-\s]+', '-', ...)` (line 103). -/
def collapseRuns (l : List Char) : List Char := collapseGo false l

/-- The `safe_chars` pipeline of `main.py` lines 98-110: ASCII
projection, drop characters outside `\\w\\s-`, collapse `[-\\s]+` runs to a
single hyphen, `strip('-')`, then truncate to `max_length` and
`rstrip('-')` when too long. -/
def strippedTitle (title : List Char) : List Char :=
  pyStripP (fun c => c = '-') (collapseRuns (keepSafe (asciiIgnore title)))

def safeTitlePart (title : List Char) (maxLength : Nat) : List Char :=
  if maxLength < (strippedTitle title).length then
    dropTrailing (fun c => c = '-') ((strippedTitle title).take maxLength)
  else strippedTitle title

/-- `create_safe_filename(title, url, max_length)` (`main.py` lines
90-119). Line 94 returns `f"{hash(url)}.md"` for a falsy title; line 113
takes `str(abs(hash(url)))[:8]` as the disambiguation suffix; lines
116-119 pick the `untitled` or titled form. -/
def create_safe_filename (title : List Char) (urlHash : Int) (maxLength : Nat) :
    List Char :=
  if title.isEmpty then intStr urlHash ++ ".md".data
  else if (safeTitlePart title maxLength).isEmpty then
    "untitled_".data ++ (natStr urlHash.natAbs).take 8 ++ ".md".data
  else
    safeTitlePart title maxLength ++ "_".data ++
      (natStr urlHash.natAbs).take 8 ++ ".md".data

example :
    create_safe_filename "My Title".data 12345678 100 =
      "My-Title_12345678.md".data := by decide
example : create_safe_filename [] (-7) 100 = "-7.md".data := by decide

/-! ### `acquire_rate_limit` (`main.py` lines 166-182)

Timestamps are rationals. Each pass through trim-check-append runs with
no `await` inside it, so under the single event loop it is atomic; a
caller that sleeps re-enters through the recursive call and re-evaluates
from scratch, which the model renders as a later attempt event. `rlStep`
is one atomic pass: it trims the window, then either admits (appending
`now`) or refuses (the caller sleeps). The source's fall-through that
appends despite a full window when `sleep_time <= 0` is kept verbatim;
the safety proof shows it is unreachable because `last_request_times[0]`
survived the trim with the same `now`. -/

def rlStep (state : List ℚ) (now : ℚ) : List ℚ × Bool :=
  -- line 172: drop timestamps older than the window
  let trimmed := state.filter (fun t => now - t < (RATE_PERIOD : ℚ))
  if RATE_LIMIT ≤ trimmed.length then
    match trimmed.head? with
    | some t0 =>
      -- lines 176-179: wait until the oldest request expires, then retry
      if 0 < (RATE_PERIOD : ℚ) - (now - t0) then (trimmed, false)
      else (trimmed ++ [now], true)
    | none => (trimmed ++ [now], true)
  else (trimmed ++ [now], true)

/-- Run a sequence of attempt events (times nondecreasing: one process
clock) against the limiter. Returns the final window state and the list
of admitted times in order. -/
def runRL : List ℚ → List ℚ → List ℚ → List ℚ × List ℚ
  | [], st, adm => (st, adm)
  | now :: rest, st, adm =>
    let s := rlStep st now
    runRL rest s.1 (if s.2 then adm ++ [now] else adm)

example : (rlStep [] 0).2 = true := by
  simp [rlStep, RATE_LIMIT]

/-! ### Link discovery (`main.py` lines 437-445)

HTML parsing is an external capability: `hrefs` is the list of anchor
targets of the seed page's markup. -/

/-- The filter of `main.py` lines 438-441. -/
def discoverLinks (hrefs : List (List Char)) : List (List Char) :=
  hrefs.filter (fun h => "http".data.isPrefixOf h && !should_skip_url h)

/-- `progress_tracker[tracker_id]["total"] = len(links) + 1` (line 444). -/
def jobTotal (hrefs : List (List Char)) : Nat := (discoverLinks hrefs).length + 1

/-! ### `create_zip_file` (`main.py` lines 332-378)

File naming (title extraction + `create_safe_filename`, lines 356-357)
and the compression step are elided: no counter and no error path depends
on them; the archive is represented by the entries that would be written,
each entry's body being the URL header plus the content (line 362). The
"No valid content" exception is raised (line 367) before the ZIP is
created (line 371), so the `Except.error` result carries no entries. -/

structure ZipOut where
  count : Nat
  prog : Progress
  snaps : List Progress
  written : List (List Char × List Char)
deriving Repr

/-- The `for url, content in contents` loop of `main.py` lines 342-364. -/
def zipLoop : List (List Char × List Char) → Progress → ZipOut
  | [], p => ⟨0, p, [], []⟩
  | (u, c) :: rest, p =>
    if c.isEmpty then zipLoop rest p           -- line 343: skip empty content
    else if archiveReject c then
      -- lines 346-353: failed += 1, exclude
      let p1 := { p with failed := p.failed + 1 }
      let z := zipLoop rest p1
      ⟨z.count, z.prog, p1 :: z.snaps, z.written⟩
    else
      -- lines 355-364: write file, file_count += 1, successful += 1
      let p1 := { p with successful := p.successful + 1 }
      let z := zipLoop rest p1
      ⟨z.count + 1, z.prog, p1 :: z.snaps,
        ("# Original URL: ".data ++ u ++ "\n\n".data ++ c, c) :: z.written⟩

/-- `create_zip_file` (`main.py` lines 332-378). Returns the snapshots of
every counter mutation (the reset of line 338 first), the final record,
and either the archive entries or the error of line 367. -/
def create_zip_file (contents : List (List Char × List Char)) (p : Progress) :
    List Progress × Progress × Except (List Char) (List (List Char × List Char)) :=
  let p0 := { p with successful := 0 }       -- line 338
  let z := zipLoop contents p0
  (p0 :: z.snaps, z.prog,
    if z.count = 0 then Except.error "No valid content to download".data
    else Except.ok z.written)

/-! ### `scrape_url` (`main.py` lines 423-483) and collaborators

`resp i` scripts the responses of the `i`-th fetched URL (index 0 is the
seed). Link fetches are modelled sequentially; inside a batch the only
suspension points of a fetch precede its terminal counter-mutation pair,
which runs atomically on the single event loop, so any interleaving's
snapshot sequence equals the sequential model's sequence for the
correspondingly reordered link list, and every theorem below quantifies
over arbitrary link lists and response scripts. The inter-batch sleep
(line 461) mutates no counter. -/

structure LinksOut where
  results : List (List Char × List Char)
  snaps : List Progress
  prog : Progress
deriving Repr

/-- The batched link fetches of `main.py` lines 450-461, flattened. -/
def crawlLinks (resp : Nat → Nat → Resp) :
    List (List Char) → Nat → Progress → LinksOut
  | [], _, p => ⟨[], [], p⟩
  | l :: ls, i, p =>
    let o := get_markdown_content (resp i) l p
    let rest := crawlLinks resp ls (i + 1) o.prog
    ⟨(o.url, o.content) :: rest.results, o.snaps ++ rest.snaps, rest.prog⟩

/-- The response model of `main.py` lines 477-483. -/
structure ScrapeResp where
  links : List (List Char)
  successful : Nat
  skipped : Nat
  failed : Nat
deriving Repr, DecidableEq

/-- One crawl's observable artifacts. `preSnaps` are the progress
snapshots taken before `total` is initialized at line 444 (the seed
fetch); `postSnaps` are every snapshot from that initialization on,
including the archive phase. `registered` records whether the job id was
stored in `results_tracker` (line 466): the assignment is inside the
`try` whose `except` (lines 467-469) swallows the archive error. -/
structure CrawlTrace where
  preSnaps : List Progress
  postSnaps : List Progress
  results : List (List Char × List Char)
  links : List (List Char)
  archive : Except (List Char) (List (List Char × List Char))
  finalCounts : Progress
  response : ScrapeResp
  registered : Bool

/-- Line 430: the seed URL is fetched first, against the defaultdict's
fresh record — before `total` is known. -/
def seedFetch (resp : Nat → Nat → Resp) (seed : List Char) : FetchOut :=
  get_markdown_content (resp 0) seed Progress.init

/-- Line 444: `total = len(links) + 1` is set after the seed fetch. -/
def progAfterTotal (resp : Nat → Nat → Resp) (seed : List Char)
    (hrefs : List (List Char)) : Progress :=
  { (seedFetch resp seed).prog with total := (discoverLinks hrefs).length + 1 }

/-- Line 445: `processed = 1` (the seed is already counted). -/
def progAfterReset (resp : Nat → Nat → Resp) (seed : List Char)
    (hrefs : List (List Char)) : Progress :=
  { progAfterTotal resp seed hrefs with processed := 1 }

/-- Lines 450-461: fetch the discovered links. -/
def linkCrawl (resp : Nat → Nat → Resp) (seed : List Char)
    (hrefs : List (List Char)) : LinksOut :=
  crawlLinks resp (discoverLinks hrefs) 1 (progAfterReset resp seed hrefs)

/-- Lines 431 and 457: the accumulated `(url, content)` pairs, seed first. -/
def crawlResults (resp : Nat → Nat → Resp) (seed : List Char)
    (hrefs : List (List Char)) : List (List Char × List Char) :=
  ((seedFetch resp seed).url, (seedFetch resp seed).content) ::
    (linkCrawl resp seed hrefs).results

/-- Lines 463-469: `create_zip_file` inside the inner try/except. -/
def archiveStep (resp : Nat → Nat → Resp) (seed : List Char)
    (hrefs : List (List Char)) :
    List Progress × Progress × Except (List Char) (List (List Char × List Char)) :=
  create_zip_file (crawlResults resp seed hrefs) (linkCrawl resp seed hrefs).prog

/-- `scrape_url` (`main.py` lines 423-483), given the seed URL and the
anchor targets extracted from its raw markup. -/
def scrape_url (resp : Nat → Nat → Resp) (seed : List Char)
    (hrefs : List (List Char)) : CrawlTrace :=
  { preSnaps := (seedFetch resp seed).snaps
    postSnaps := progAfterTotal resp seed hrefs :: progAfterReset resp seed hrefs ::
      ((linkCrawl resp seed hrefs).snaps ++ (archiveStep resp seed hrefs).1)
    results := crawlResults resp seed hrefs
    links := discoverLinks hrefs
    archive := (archiveStep resp seed hrefs).2.2
    finalCounts := (archiveStep resp seed hrefs).2.1
    -- lines 477-483: the response is returned whether or not the archive
    -- step failed; the counts are read from the tracker after the inner try
    response := ⟨seed :: discoverLinks hrefs,
      (archiveStep resp seed hrefs).2.1.successful,
      (archiveStep resp seed hrefs).2.1.skipped,
      (archiveStep resp seed hrefs).2.1.failed⟩
    registered := (archiveStep resp seed hrefs).2.2.toBool }

/-- `download_results` (`main.py` lines 394-398): the registry is the set
of job ids present in `results_tracker`; an absent id yields the 404. -/
def download_results (registry : List (List Char)) (jobId : List Char) :
    Except (Nat × List Char) (List Char) :=
  if jobId ∈ registry then Except.ok jobId
  else Except.error (404, "Results not found".data)

/-- The `results_tracker` contents produced by one crawl for its job id. -/
def registryOf (tr : CrawlTrace) (jobId : List Char) : List (List Char) :=
  if tr.registered then [jobId] else []

/-- Modelled from the spec: the `/cancel/{tracker_id}` endpoint
(`main.py` lines 197-200) delegates to `cancel_scraping`, which is not
defined under `src/`. Per the spec, "a cancellation request only deletes
the job's progress record", leaving every other entry of the tracker and
all other crawl state untouched. The tracker is an association list from
tracker keys to progress records. -/
def cancel_scraping (tracker : List (List Char × Progress)) (tid : List Char) :
    List (List Char × Progress) :=
  tracker.filter (fun e => !(e.1 = tid))

/-! ### String-stripping lemmas -/

theorem dropWhile_dropWhile {α : Type} (p : α → Bool) (l : List α) :
    (l.dropWhile p).dropWhile p = l.dropWhile p := by
  induction l with
  | nil => rfl
  | cons c t ih =>
    by_cases h : p c
    · simpa [List.dropWhile_cons_of_pos h] using ih
    · simp [List.dropWhile_cons_of_neg h]

theorem dropTrailing_dropTrailing (p : Char → Bool) (l : List Char) :
    dropTrailing p (dropTrailing p l) = dropTrailing p l := by
  unfold dropTrailing
  rw [List.reverse_reverse, dropWhile_dropWhile]

theorem dropWhile_dropTrailing (p : Char → Bool) (l : List Char) :
    (dropTrailing p (l.dropWhile p)).dropWhile p = dropTrailing p (l.dropWhile p) := by
  have hsuf : dropTrailing p (l.dropWhile p) <+: l.dropWhile p := by
    unfold dropTrailing
    have := List.dropWhile_suffix (l := (l.dropWhile p).reverse) p
    exact List.reverse_suffix.mp (by simpa using this)
  rcases h : l.dropWhile p with _ | ⟨c, t⟩
  · have : dropTrailing p ([] : List Char) = [] := rfl
    simp [this]
  · have hc : p c = false := by
      have := List.head?_dropWhile_not p l
      rw [h] at this
      simpa using this
    rw [h] at hsuf
    rcases h2 : dropTrailing p (c :: t) with _ | ⟨d, u⟩
    · rfl
    · have hd : d = c := by
        rw [h2] at hsuf
        rcases hsuf with ⟨w, hw⟩
        cases hw
        rfl
    -- fallthrough handled below
      subst hd
      simp [List.dropWhile_cons_of_neg, hc]

theorem pyStripP_idem (p : Char → Bool) (l : List Char) :
    pyStripP p (pyStripP p l) = pyStripP p l := by
  unfold pyStripP
  rw [dropWhile_dropTrailing, dropTrailing_dropTrailing]

theorem pyStrip_idem (l : List Char) : pyStrip (pyStrip l) = pyStrip l :=
  pyStripP_idem isPySpace l

/-- On an already-stripped string the fetch-time and archival rejection
predicates coincide: the only textual difference between the two source
checks is `len(content)` versus `len(content.strip())`. -/
theorem reject_agree_of_stripped {c : List Char} (h : pyStrip c = c) :
    fetchReject c = archiveReject c := by
  unfold fetchReject archiveReject
  rw [h]

/-! ### Behavioral specification of the fetch path -/

/-- What any terminal outcome of the retry loop looks like: the returned
URL is the input URL, exactly two snapshots are appended (`processed`
bump first, then the category bump), and the outcome is either a
provisional success carrying stripped fetch-accepted non-empty content,
or a failure carrying empty content. -/
def FetchSpec (url : List Char) (p : Progress) (snaps : List Progress)
    (o : FetchOut) : Prop :=
  o.url = url ∧
  o.snaps = snaps ++ [{ p with processed := p.processed + 1 }, o.prog] ∧
  ((o.prog = { p with
      processed := p.processed + 1
      potential_successful := p.potential_successful + 1 } ∧
    pyStrip o.content = o.content ∧ fetchReject o.content = false ∧
    o.content ≠ []) ∨
   (o.prog = { p with
      processed := p.processed + 1
      failed := p.failed + 1 } ∧
    o.content = []))

theorem finishFailed_spec (url : List Char) (p : Progress) (snaps : List Progress)
    (reqs : Nat) (sleeps : List Nat) :
    FetchSpec url p snaps (finishFailed url p snaps reqs sleeps) := by
  refine ⟨rfl, rfl, Or.inr ⟨rfl, rfl⟩⟩

theorem fetchLoop_spec (resp : Nat → Resp) (url : List Char) :
    ∀ (fuel retries reqs : Nat) (sleeps : List Nat) (p : Progress)
      (snaps : List Progress),
    FetchSpec url p snaps (fetchLoop resp url fuel retries reqs sleeps p snaps) := by
  intro fuel
  induction fuel with
  | zero =>
    intro retries reqs sleeps p snaps
    exact finishFailed_spec url p snaps reqs sleeps
  | succ fuel ih =>
    intro retries reqs sleeps p snaps
    rw [fetchLoop]
    by_cases h200 : (resp reqs).status = 200
    · rw [if_pos h200]
      by_cases hshort :
          (pyStrip (resp reqs).body).length < 50 ∨
          (pyStrip (resp reqs).body).count '\n' < 3
      · rw [if_pos hshort]
        by_cases hr : retries + 1 ≤ MAX_RETRIES
        · rw [if_pos hr]; exact ih _ _ _ _ _
        · rw [if_neg hr]; exact finishFailed_spec url p snaps _ _
      · rw [if_neg hshort]
        by_cases hmeta : metaOnly (pyStrip (resp reqs).body) = true
        · rw [if_pos hmeta]
          by_cases hr : retries + 1 ≤ MAX_RETRIES
          · rw [if_pos hr]; exact ih _ _ _ _ _
          · rw [if_neg hr]; exact finishFailed_spec url p snaps _ _
        · rw [if_neg hmeta]
          push_neg at hshort
          refine ⟨rfl, rfl, Or.inl ⟨rfl, pyStrip_idem _, ?_, ?_⟩⟩
          · simp [fetchReject, Nat.not_lt.mpr hshort.1, Nat.not_lt.mpr hshort.2,
              Bool.eq_false_iff.mpr hmeta]
          · intro hnil
            dsimp only at hnil
            have h50 := hshort.1
            rw [hnil] at h50
            simp at h50
    · rw [if_neg h200]
      by_cases h429 : (resp reqs).status = 429
      · rw [if_pos h429]
        by_cases hr : retries + 1 ≤ MAX_RETRIES
        · rw [if_pos hr]; exact ih _ _ _ _ _
        · rw [if_neg hr]; exact finishFailed_spec url p snaps _ _
      · rw [if_neg h429]
        by_cases hr : retries + 1 ≤ MAX_RETRIES ∧
            retryTrigger (statusMsg (resp reqs).status) = true
        · rw [if_pos hr]; exact ih _ _ _ _ _
        · rw [if_neg hr]; exact finishFailed_spec url p snaps _ _

/-- Terminal outcomes of `get_markdown_content`: the skip path joins the
two loop outcomes. -/
def GmcSpec (url : List Char) (p : Progress) (o : FetchOut) : Prop :=
  o.url = url ∧
  o.snaps = [{ p with processed := p.processed + 1 }, o.prog] ∧
  ((o.prog = { p with
      processed := p.processed + 1
      skipped := p.skipped + 1 } ∧
    o.content = []) ∨
   (o.prog = { p with
      processed := p.processed + 1
      potential_successful := p.potential_successful + 1 } ∧
    pyStrip o.content = o.content ∧ fetchReject o.content = false ∧
    o.content ≠ []) ∨
   (o.prog = { p with
      processed := p.processed + 1
      failed := p.failed + 1 } ∧
    o.content = []))

theorem get_markdown_content_spec (resp : Nat → Resp) (url : List Char)
    (p : Progress) : GmcSpec url p (get_markdown_content resp url p) := by
  rw [get_markdown_content]
  by_cases hs : should_skip_url url = true
  · simp only [if_pos hs]
    exact ⟨rfl, rfl, Or.inl ⟨rfl, rfl⟩⟩
  · simp only [if_neg hs]
    have h := fetchLoop_spec resp url (MAX_RETRIES + 1) 0 0 [] p []
    rcases h with ⟨hu, hsn, hcase⟩
    refine ⟨hu, by simpa using hsn, ?_⟩
    rcases hcase with hok | hfail
    · exact Or.inr (Or.inl hok)
    · exact Or.inr (Or.inr hfail)

/-! ## Claim C4 -/

/-- Claim C4: for every URL matching the skip-pattern set,
`get_markdown_content` performs no network request, increments the job's
`processed` and `skipped` counters exactly once each, and returns the
pair `(url, "")` with empty content (and no backoff sleep). -/
theorem claim_C4_skip_no_network (resp : Nat → Resp) (url : List Char)
    (p : Progress) (h : should_skip_url url = true) :
    (get_markdown_content resp url p).requests = 0 ∧
    (get_markdown_content resp url p).url = url ∧
    (get_markdown_content resp url p).content = [] ∧
    (get_markdown_content resp url p).sleeps = [] ∧
    (get_markdown_content resp url p).prog = { p with
      processed := p.processed + 1
      skipped := p.skipped + 1 } := by
  rw [get_markdown_content, if_pos h]
  exact ⟨rfl, rfl, rfl, rfl, rfl⟩

/-- Witness for C4 at a concrete skip URL. -/
theorem claim_C4_witness :
    should_skip_url "https://twitter.com/foo".data = true ∧
    (get_markdown_content (fun _ => ⟨200, []⟩) "https://twitter.com/foo".data
      Progress.init).requests = 0 :=
  ⟨by decide,
    (claim_C4_skip_no_network (fun _ => ⟨200, []⟩) "https://twitter.com/foo".data
      Progress.init (by decide)).1⟩

/-! ## Claim C5 -/

/-- A string on which the two validation predicates disagree: 57
characters long (so the fetch-time `len(content) < 50` accepts) but only
11 characters after stripping (so the archival `len(content.strip()) <
50` rejects), with 3 newlines and non-metadata lines. -/
def c5cex : List Char := "abc\ndef\nghi\n".data ++ List.replicate 45 ' '

/-- Counterexample to claim C5 as stated: the fetch-time rejection
predicate and the archival-time rejection predicate do not agree on all
content strings. -/
theorem claim_C5_counterexample :
    fetchReject c5cex = false ∧ archiveReject c5cex = true ∧
    ¬fetchReject c5cex = archiveReject c5cex := by decide

/-- Claim C5 as amended: the two rejection predicates agree on every
string with no leading or trailing whitespace — in particular on every
content string the fetch pass can hand to the archival pass, since the
fetch pass strips the response text (`main.py` line 261). -/
theorem claim_C5_amended (c : List Char) (h : pyStrip c = c) :
    fetchReject c = archiveReject c :=
  reject_agree_of_stripped h

/-- Witness for the amended C5 at a concrete stripped string. -/
theorem claim_C5_witness :
    pyStrip "ab\ncd".data = "ab\ncd".data ∧
    fetchReject "ab\ncd".data = archiveReject "ab\ncd".data :=
  ⟨by decide, claim_C5_amended "ab\ncd".data (by decide)⟩

/-! ## Claim C3 -/

/-- The scripted server of the C3 counterexample: every request is
answered with HTTP 500. -/
def c3resp : Nat → Resp := fun _ => ⟨500, []⟩

def c3url : List Char := "https://example.org/a".data

/-- Counterexample to claim C3 as stated: on a persistent non-200,
non-429 status (here 500), `get_markdown_content` does NOT retry up to
`MAX_RETRIES`: it issues exactly one request, sleeps no backoff delay,
and immediately marks the URL processed+failed. A retrying
implementation would have issued `MAX_RETRIES + 1` requests with sleeps
`[5, 10, 15]`, as the same code does for persistent 429. -/
theorem claim_C3_counterexample :
    (get_markdown_content c3resp c3url Progress.init).requests = 1 ∧
    (get_markdown_content c3resp c3url Progress.init).sleeps = [] ∧
    ¬(get_markdown_content c3resp c3url Progress.init).requests = MAX_RETRIES + 1 ∧
    (get_markdown_content c3resp c3url Progress.init).prog.failed = 1 ∧
    (get_markdown_content c3resp c3url Progress.init).content = [] := by decide

/-- The same model does retry with the linear delays for persistent 429,
isolating the divergence to the non-429 error statuses. -/
theorem status429_retries_with_linear_backoff :
    (get_markdown_content (fun _ => ⟨429, []⟩) c3url Progress.init).requests =
      MAX_RETRIES + 1 ∧
    (get_markdown_content (fun _ => ⟨429, []⟩) c3url Progress.init).sleeps =
      [RETRY_DELAY * 1, RETRY_DELAY * 2, RETRY_DELAY * 3] := by decide

/-- Claim C3 as amended: a response status other than 200 whose error
message `"Failed to get content: {code}"` matches none of the retry
triggers (`"429"`, `"too short"`, `"only metadata"` — which for HTTP
statuses excludes exactly 429) raises into the shared exception handler
but is NOT retried: the fetch issues exactly one request, sleeps no
backoff delay, marks the URL processed+failed once each, and returns
empty content. -/
theorem claim_C3_amended (resp : Nat → Resp) (url : List Char) (p : Progress)
    (hskip : should_skip_url url = false)
    (h200 : ¬(resp 0).status = 200) (h429 : ¬(resp 0).status = 429)
    (htrig : retryTrigger (statusMsg (resp 0).status) = false) :
    (get_markdown_content resp url p).requests = 1 ∧
    (get_markdown_content resp url p).sleeps = [] ∧
    (get_markdown_content resp url p).content = [] ∧
    (get_markdown_content resp url p).prog = { p with
      processed := p.processed + 1
      failed := p.failed + 1 } := by
  rw [get_markdown_content, if_neg (by simp [hskip])]
  rw [fetchLoop]
  rw [if_neg h200, if_neg h429]
  rw [if_neg (by simp [htrig])]
  exact ⟨rfl, rfl, rfl, rfl⟩

/-- Witness for the amended C3 at the concrete 500-responding server. -/
theorem claim_C3_witness :
    should_skip_url c3url = false ∧
    retryTrigger (statusMsg 500) = false ∧
    (get_markdown_content c3resp c3url Progress.init).sleeps = [] :=
  ⟨by decide, by decide,
    (claim_C3_amended c3resp c3url Progress.init (by decide) (by decide)
      (by decide) (by decide)).2.1⟩

/-! ## Claim C6 -/

/-- Every character a produced filename may contain: `\w` characters of
the ASCII range, the hyphen, and the dot of the extension. -/
def goodChar (c : Char) : Bool := isWordChar c || c = '-' || c = '.'

/-- Path separators and Windows-reserved filename characters, plus NUL. -/
def badChars : List Char :=
  ['/', '\\', ':', '*', '?', '"', '<', '>', '|', Char.ofNat 0]

theorem natStrAux_len_le :
    ∀ (fuel n k : Nat), n < 10 ^ k → (natStrAux fuel n).length ≤ max 1 k := by
  intro fuel
  induction fuel with
  | zero => intro n k _; simp [natStrAux]
  | succ fuel ih =>
    intro n k h
    rw [natStrAux]
    by_cases h10 : n < 10
    · rw [if_pos h10]
      simp [Nat.le_max_left]
    · rw [if_neg h10]
      have hk : 2 ≤ k := by
        by_contra hcon
        push_neg at hcon
        have hle : (10 : Nat) ^ k ≤ 10 ^ 1 :=
          Nat.pow_le_pow_right (by norm_num) (by omega)
        simp at hle
        omega
      have hdiv : n / 10 < 10 ^ (k - 1) := by
        rw [Nat.div_lt_iff_lt_mul (by norm_num)]
        have hpow : 10 ^ (k - 1) * 10 = 10 ^ k := by
          rw [← pow_succ]
          congr 1
          omega
        omega
      have hrec := ih (n / 10) (k - 1) hdiv
      have hmax1 : max 1 (k - 1) = k - 1 := Nat.max_eq_right (by omega)
      have hmax2 : max 1 k = k := Nat.max_eq_right (by omega)
      rw [List.length_append, hmax2]
      rw [hmax1] at hrec
      simp only [List.length_cons, List.length_nil]
      omega

theorem natStrAux_good :
    ∀ (fuel n : Nat), ∀ c ∈ natStrAux fuel n, goodChar c = true := by
  have hdig : ∀ d : Nat, d < 10 → goodChar (Char.ofNat (48 + d)) = true := by decide
  intro fuel
  induction fuel with
  | zero => intro n c hc; simp [natStrAux] at hc
  | succ fuel ih =>
    intro n c hc
    rw [natStrAux] at hc
    by_cases h10 : n < 10
    · rw [if_pos h10] at hc
      simp at hc
      subst hc
      exact hdig n h10
    · rw [if_neg h10] at hc
      rcases List.mem_append.mp hc with hc | hc
      · exact ih _ c hc
      · simp at hc
        subst hc
        exact hdig _ (Nat.mod_lt _ (by norm_num))

theorem natStr_good (n : Nat) : ∀ c ∈ natStr n, goodChar c = true := by
  intro c hc
  rw [natStr] at hc
  exact natStrAux_good 32 n c hc

theorem intStr_good (i : Int) : ∀ c ∈ intStr i, goodChar c = true := by
  intro c hc
  rw [intStr] at hc
  by_cases h : i < 0
  · rw [if_pos h] at hc
    rcases List.mem_cons.mp hc with hc | hc
    · subst hc; decide
    · exact natStr_good _ c hc
  · rw [if_neg h] at hc
    exact natStr_good _ c hc

theorem natStr_len_le (n : Nat) (h : n < 10 ^ 19) : (natStr n).length ≤ 19 := by
  have := natStrAux_len_le 32 n 19 h
  simpa [natStr] using this

theorem intStr_length_le (i : Int) (h : i.natAbs ≤ 2 ^ 63) :
    (intStr i).length ≤ 20 := by
  have h19 : i.natAbs < 10 ^ 19 := by
    calc i.natAbs ≤ 2 ^ 63 := h
    _ < 10 ^ 19 := by norm_num
  have hb := natStr_len_le i.natAbs h19
  rw [intStr]
  by_cases hneg : i < 0
  · rw [if_pos hneg]
    simp only [List.length_cons]
    omega
  · rw [if_neg hneg]
    omega

theorem collapseGo_mem :
    ∀ (l : List Char) (b : Bool) (c : Char), c ∈ collapseGo b l →
      c = '-' ∨ (c ∈ l ∧ isDashSpace c = false) := by
  intro l
  induction l with
  | nil => intro b c hc; simp [collapseGo] at hc
  | cons a t ih =>
    intro b c hc
    rw [collapseGo] at hc
    by_cases hd : isDashSpace a = true
    · rw [if_pos hd] at hc
      cases b with
      | true =>
        rw [if_pos rfl] at hc
        rcases ih true c hc with h | ⟨hm, hds⟩
        · exact Or.inl h
        · exact Or.inr ⟨List.mem_cons_of_mem a hm, hds⟩
      | false =>
        rw [if_neg (by simp)] at hc
        rcases List.mem_cons.mp hc with h | hc
        · exact Or.inl h
        · rcases ih true c hc with h | ⟨hm, hds⟩
          · exact Or.inl h
          · exact Or.inr ⟨List.mem_cons_of_mem a hm, hds⟩
    · rw [if_neg hd] at hc
      rcases List.mem_cons.mp hc with h | hc
      · subst h
        exact Or.inr ⟨List.mem_cons_self _ _, Bool.not_eq_true _ ▸ eq_false_of_ne_true hd⟩
      · rcases ih false c hc with h | ⟨hm, hds⟩
        · exact Or.inl h
        · exact Or.inr ⟨List.mem_cons_of_mem a hm, hds⟩

theorem mem_dropTrailing {p : Char → Bool} {l : List Char} {c : Char}
    (h : c ∈ dropTrailing p l) : c ∈ l := by
  unfold dropTrailing at h
  rw [List.mem_reverse] at h
  have h2 := (List.dropWhile_sublist p).subset h
  rwa [List.mem_reverse] at h2

theorem mem_pyStripP {p : Char → Bool} {l : List Char} {c : Char}
    (h : c ∈ pyStripP p l) : c ∈ l := by
  unfold pyStripP at h
  exact (List.dropWhile_sublist p).subset (mem_dropTrailing h)

theorem dropTrailing_length_le (p : Char → Bool) (l : List Char) :
    (dropTrailing p l).length ≤ l.length := by
  unfold dropTrailing
  calc (l.reverse.dropWhile p).reverse.length
      = (l.reverse.dropWhile p).length := List.length_reverse _
    _ ≤ l.reverse.length := (List.dropWhile_sublist p).length_le
    _ = l.length := List.length_reverse _

theorem strippedTitle_good (title : List Char) :
    ∀ c ∈ strippedTitle title, goodChar c = true := by
  intro c hc
  rw [strippedTitle] at hc
  have hmem2 := mem_pyStripP hc
  rw [collapseRuns] at hmem2
  rcases collapseGo_mem _ _ _ hmem2 with h | ⟨hmem1, hds⟩
  · subst h; decide
  · rw [keepSafe, List.mem_filter] at hmem1
    have hcond := hmem1.2
    simp only [isDashSpace, Bool.or_eq_false_iff] at hds
    simp only [Bool.or_eq_true, decide_eq_true_eq] at hcond
    rw [goodChar]
    rcases hcond with (hw | hs) | hdash
    · simp [hw]
    · rw [hds.2] at hs; exact absurd hs (by simp)
    · exact absurd (decide_eq_true hdash) (by simp [hds.1])

theorem safeTitlePart_good (title : List Char) (m : Nat) :
    ∀ c ∈ safeTitlePart title m, goodChar c = true := by
  intro c hc
  rw [safeTitlePart] at hc
  by_cases hm : m < (strippedTitle title).length
  · rw [if_pos hm] at hc
    have h1 := mem_dropTrailing hc
    exact strippedTitle_good title c ((List.take_sublist _ _).subset h1)
  · rw [if_neg hm] at hc
    exact strippedTitle_good title c hc

theorem safeTitlePart_length_le (title : List Char) (m : Nat) :
    (safeTitlePart title m).length ≤ m := by
  rw [safeTitlePart]
  by_cases hm : m < (strippedTitle title).length
  · rw [if_pos hm]
    calc (dropTrailing (fun c => c = '-') ((strippedTitle title).take m)).length
        ≤ ((strippedTitle title).take m).length := dropTrailing_length_le _ _
      _ ≤ m := by simp [List.length_take]
  · rw [if_neg hm]
    omega

/-- Counterexample to claim C6 as stated: with a 100-character safe
title and the default `max_length = 100`, the produced filename is 112
characters long — the `_hash.md` suffix is appended after the
truncation, so the configured maximum is exceeded. -/
theorem claim_C6_counterexample :
    100 < (create_safe_filename (List.replicate 100 'a') 12345678 100).length ∧
    (create_safe_filename (List.replicate 100 'a') 12345678 100).length = 112 := by
  decide

/-- Claim C6 as amended: for every title (the empty list models both
`None` and `""`) and every URL hash in CPython's 64-bit range, the
filename ends in `.md`, contains no path-separator or
filesystem-reserved character, and its length is at most
`max_length + 12` for the configured default `max_length = 100` — the
truncation bounds only the title part, and the disambiguation suffix
`_hash.md` adds up to 12 further characters. -/
theorem claim_C6_amended (title : List Char) (urlHash : Int)
    (hh : urlHash.natAbs ≤ 2 ^ 63) :
    ".md".data <:+ create_safe_filename title urlHash 100 ∧
    (create_safe_filename title urlHash 100).length ≤ 112 ∧
    (∀ c ∈ create_safe_filename title urlHash 100, goodChar c = true) ∧
    (∀ c ∈ create_safe_filename title urlHash 100, c ∉ badChars) := by
  have hbadlist : ∀ c ∈ badChars, goodChar c = false := by decide
  have hmd : ∀ c ∈ ".md".data, goodChar c = true := by decide
  have hunt : ∀ c ∈ "untitled_".data, goodChar c = true := by decide
  have hus : ∀ c ∈ "_".data, goodChar c = true := by decide
  have hhash : ∀ c ∈ (natStr urlHash.natAbs).take 8, goodChar c = true := by
    intro c hc
    exact natStr_good _ c ((List.take_sublist _ _).subset hc)
  have hgood : ∀ c ∈ create_safe_filename title urlHash 100, goodChar c = true := by
    intro c hc
    rw [create_safe_filename] at hc
    by_cases ht : title.isEmpty = true
    · rw [if_pos ht] at hc
      rcases List.mem_append.mp hc with hc | hc
      · exact intStr_good _ c hc
      · exact hmd c hc
    · rw [if_neg ht] at hc
      by_cases he : (safeTitlePart title 100).isEmpty = true
      · rw [if_pos he] at hc
        rcases List.mem_append.mp hc with hc | hc
        · rcases List.mem_append.mp hc with hc | hc
          · exact hunt c hc
          · exact hhash c hc
        · exact hmd c hc
      · rw [if_neg he] at hc
        rcases List.mem_append.mp hc with hc | hc
        · rcases List.mem_append.mp hc with hc | hc
          · rcases List.mem_append.mp hc with hc | hc
            · exact safeTitlePart_good title 100 c hc
            · exact hus c hc
          · exact hhash c hc
        · exact hmd c hc
  have hlen : (create_safe_filename title urlHash 100).length ≤ 112 := by
    have hhl : ((natStr urlHash.natAbs).take 8).length ≤ 8 := by
      simp [List.length_take]
    rw [create_safe_filename]
    by_cases ht : title.isEmpty = true
    · rw [if_pos ht]
      have hi := intStr_length_le urlHash hh
      simp only [List.length_append, String.data, List.length_cons, List.length_nil]
      omega
    · rw [if_neg ht]
      have htp := safeTitlePart_length_le title 100
      by_cases he : (safeTitlePart title 100).isEmpty = true
      · rw [if_pos he]
        simp only [List.length_append, String.data, List.length_cons, List.length_nil]
        omega
      · rw [if_neg he]
        simp only [List.length_append, String.data, List.length_cons, List.length_nil]
        omega
  have hsuf : ".md".data <:+ create_safe_filename title urlHash 100 := by
    rw [create_safe_filename]
    by_cases ht : title.isEmpty = true
    · rw [if_pos ht]; exact List.suffix_append _ _
    · rw [if_neg ht]
      by_cases he : (safeTitlePart title 100).isEmpty = true
      · rw [if_pos he]; exact List.suffix_append _ _
      · rw [if_neg he]; exact List.suffix_append _ _
  refine ⟨hsuf, hlen, hgood, ?_⟩
  intro c hc hbad
  have hf := hbadlist c hbad
  have htt := hgood c hc
  rw [htt] at hf
  exact Bool.true_eq_false ▸ hf

/-- Witness for the amended C6 at a concrete title and hash. -/
theorem claim_C6_witness :
    ((12345678 : Int).natAbs ≤ 2 ^ 63) ∧
    ".md".data <:+ create_safe_filename "My Title".data 12345678 100 :=
  ⟨by norm_num, (claim_C6_amended "My Title".data 12345678 (by norm_num)).1⟩

/-! ## Claim C7 -/

theorem countP_not_add {α : Type} (p : α → Bool) (l : List α) :
    l.countP (fun a => !p a) + l.countP p = l.length := by
  induction l with
  | nil => simp
  | cons a t ih =>
    rw [List.countP_cons, List.countP_cons, List.length_cons]
    by_cases h : p a = true <;> simp [h] <;> omega

/-- Claim C7: for a seed page whose markup yields 15 anchor targets, all
absolute http(s), of which exactly 3 match the skip-pattern set (so 12 do
not), the job total is set to 13 — skip-pattern links are excluded by the
discovery filter of lines 438-441 before `total = len(links) + 1` is
computed at line 444, never 16. -/
theorem claim_C7_total_excludes_skipped (hrefs : List (List Char))
    (hall : ∀ h ∈ hrefs, "http".data.isPrefixOf h = true)
    (hlen : hrefs.length = 15)
    (hskip : hrefs.countP should_skip_url = 3) :
    jobTotal hrefs = 13 := by
  have hcong : hrefs.filter (fun h => "http".data.isPrefixOf h && !should_skip_url h)
      = hrefs.filter (fun h => !should_skip_url h) := by
    apply List.filter_congr
    intro a ha
    simp [hall a ha]
  have hsum := countP_not_add should_skip_url hrefs
  rw [jobTotal, discoverLinks, hcong, ← List.countP_eq_length_filter]
  omega

/-- The 15 anchor targets of the C7 witness: 12 ordinary links, 2
social-domain links and 1 image link. -/
def c7hrefs : List (List Char) :=
  ["http://e1.example.org/a".data, "http://e2.example.org/b".data,
   "http://e3.example.org/c".data, "http://e4.example.org/d".data,
   "http://e5.example.org/e".data, "http://e6.example.org/f".data,
   "http://e7.example.org/g".data, "http://e8.example.org/h".data,
   "http://e9.example.org/i".data, "http://e10.example.org/j".data,
   "http://e11.example.org/k".data, "http://e12.example.org/l".data,
   "http://twitter.com/x".data, "https://facebook.com/y".data,
   "http://img.example.org/p.png".data]

/-- Witness for C7 at the concrete anchor list. -/
theorem claim_C7_witness :
    c7hrefs.length = 15 ∧ c7hrefs.countP should_skip_url = 3 ∧
    jobTotal c7hrefs = 13 :=
  ⟨by decide, by decide,
    claim_C7_total_excludes_skipped c7hrefs (by decide) (by decide) (by decide)⟩

/-! ## Claim C8 -/

theorem zipLoop_count_eq (contents : List (List Char × List Char)) :
    ∀ p : Progress, (zipLoop contents p).count =
      contents.countP (fun e => !e.2.isEmpty && !archiveReject e.2) := by
  induction contents with
  | nil => intro p; simp [zipLoop]
  | cons e t ih =>
    intro p
    obtain ⟨u, c⟩ := e
    rw [zipLoop, List.countP_cons]
    by_cases hc : c.isEmpty = true
    · rw [if_pos hc]
      simp [hc, ih]
    · rw [if_neg hc]
      by_cases hr : archiveReject c = true
      · rw [if_pos hr]
        simp [hc, hr, ih]
      · rw [if_neg hr]
        simp only [ih]
        simp [hc, hr]

/-- Claim C8: when zero `(url, content)` pairs survive the archival
re-validation (every entry is empty or rejected), `create_zip_file`
raises the single explicit "No valid content to download" error of line
367 — which precedes the ZIP creation of lines 370-373, so no archive
(in particular no empty archive) is produced: the `Except.error` result
carries no entries. -/
theorem claim_C8_no_empty_archive (contents : List (List Char × List Char))
    (p : Progress)
    (h : ∀ e ∈ contents, e.2.isEmpty = true ∨ archiveReject e.2 = true) :
    (create_zip_file contents p).2.2 =
      Except.error "No valid content to download".data := by
  have hcnt : (zipLoop contents { p with successful := 0 }).count = 0 := by
    rw [zipLoop_count_eq]
    apply List.countP_eq_zero.mpr
    intro e he
    rcases h e he with hc | hr
    · simp [hc]
    · simp [hr]
  rw [create_zip_file]
  dsimp only
  rw [hcnt]
  rfl

/-- Witness for C8: one pair whose content is empty. -/
theorem claim_C8_witness :
    (∀ e ∈ [("http://e.example.org".data, ([] : List Char))],
      e.2.isEmpty = true ∨ archiveReject e.2 = true) ∧
    (create_zip_file [("http://e.example.org".data, ([] : List Char))]
        Progress.init).2.2 =
      Except.error "No valid content to download".data :=
  ⟨by decide,
    claim_C8_no_empty_archive [("http://e.example.org".data, ([] : List Char))]
      Progress.init (by decide)⟩

/-! ## Claim C1 -/

/-- The second claimed invariant:
`provisional_success + skipped + failed ≤ processed`. -/
def sumLe (s : Progress) : Prop :=
  s.potential_successful + s.skipped + s.failed ≤ s.processed

theorem gmc_inv (resp : Nat → Resp) (url : List Char) (p : Progress)
    (hsum : sumLe p) :
    (∀ s ∈ (get_markdown_content resp url p).snaps,
      sumLe s ∧ s.total = p.total ∧ s.processed ≤ p.processed + 1) ∧
    sumLe (get_markdown_content resp url p).prog ∧
    (get_markdown_content resp url p).prog.total = p.total ∧
    (get_markdown_content resp url p).prog.processed = p.processed + 1 ∧
    (get_markdown_content resp url p).prog.successful = p.successful ∧
    ((get_markdown_content resp url p).content ≠ [] →
      archiveReject (get_markdown_content resp url p).content = false) := by
  obtain ⟨hu, hsn, hcase⟩ := get_markdown_content_spec resp url p
  rw [sumLe] at hsum
  rcases hcase with ⟨hprog, hcont⟩ | ⟨hprog, hstr, hrej, hne⟩ | ⟨hprog, hcont⟩
  · refine ⟨?_, ?_, ?_, ?_, ?_, ?_⟩
    · intro s hs
      rw [hsn] at hs
      rcases List.mem_cons.mp hs with rfl | hs
      · exact ⟨by simp [sumLe]; omega, rfl, by simp⟩
      · rcases List.mem_cons.mp hs with rfl | hs
        · rw [hprog]
          exact ⟨by simp [sumLe]; omega, rfl, by simp⟩
        · simp at hs
    · rw [hprog]; simp [sumLe]; omega
    · rw [hprog]
    · rw [hprog]
    · rw [hprog]
    · intro hc; rw [hcont] at hc; simp at hc
  · refine ⟨?_, ?_, ?_, ?_, ?_, ?_⟩
    · intro s hs
      rw [hsn] at hs
      rcases List.mem_cons.mp hs with rfl | hs
      · exact ⟨by simp [sumLe]; omega, rfl, by simp⟩
      · rcases List.mem_cons.mp hs with rfl | hs
        · rw [hprog]
          exact ⟨by simp [sumLe]; omega, rfl, by simp⟩
        · simp at hs
    · rw [hprog]; simp [sumLe]; omega
    · rw [hprog]
    · rw [hprog]
    · rw [hprog]
    · intro _
      rw [← reject_agree_of_stripped hstr]
      exact hrej
  · refine ⟨?_, ?_, ?_, ?_, ?_, ?_⟩
    · intro s hs
      rw [hsn] at hs
      rcases List.mem_cons.mp hs with rfl | hs
      · exact ⟨by simp [sumLe]; omega, rfl, by simp⟩
      · rcases List.mem_cons.mp hs with rfl | hs
        · rw [hprog]
          exact ⟨by simp [sumLe]; omega, rfl, by simp⟩
        · simp at hs
    · rw [hprog]; simp [sumLe]; omega
    · rw [hprog]
    · rw [hprog]
    · rw [hprog]
    · intro hc; rw [hcont] at hc; simp at hc

theorem crawlLinks_inv (resp : Nat → Nat → Resp) :
    ∀ (links : List (List Char)) (i : Nat) (p : Progress), sumLe p →
    (∀ s ∈ (crawlLinks resp links i p).snaps,
      sumLe s ∧ s.total = p.total ∧ s.processed ≤ p.processed + links.length) ∧
    sumLe (crawlLinks resp links i p).prog ∧
    (crawlLinks resp links i p).prog.total = p.total ∧
    (crawlLinks resp links i p).prog.processed = p.processed + links.length ∧
    (∀ r ∈ (crawlLinks resp links i p).results,
      r.2 ≠ [] → archiveReject r.2 = false) := by
  intro links
  induction links with
  | nil =>
    intro i p hsum
    refine ⟨?_, hsum, rfl, by simp [crawlLinks], ?_⟩
    · intro s hs
      simp [crawlLinks] at hs
    · intro r hr
      simp [crawlLinks] at hr
  | cons l ls ih =>
    intro i p hsum
    obtain ⟨hgs, hgsum, hgt, hgp, _, hgc⟩ := gmc_inv (resp i) l p hsum
    obtain ⟨hrs, hrsum, hrt, hrp, hrres⟩ :=
      ih (i + 1) (get_markdown_content (resp i) l p).prog hgsum
    rw [crawlLinks]
    dsimp only
    refine ⟨?_, hrsum, by rw [hrt, hgt], ?_, ?_⟩
    · intro s hs
      rcases List.mem_append.mp hs with hs | hs
      · obtain ⟨h1, h2, h3⟩ := hgs s hs
        exact ⟨h1, h2, by simp [List.length_cons]; omega⟩
      · obtain ⟨h1, h2, h3⟩ := hrs s hs
        rw [hgt] at h2
        rw [hgp] at h3
        exact ⟨h1, h2, by simp [List.length_cons]; omega⟩
    · rw [hrp, hgp, List.length_cons]
      omega
    · intro r hr
      rcases List.mem_cons.mp hr with rfl | hr
      · exact hgc
      · exact hrres r hr

theorem zipLoop_inv (contents : List (List Char × List Char)) :
    ∀ p : Progress, (∀ e ∈ contents, e.2 ≠ [] → archiveReject e.2 = false) →
    ∀ s ∈ (zipLoop contents p).snaps,
      s.total = p.total ∧ s.processed = p.processed ∧
      s.potential_successful = p.potential_successful ∧
      s.skipped = p.skipped ∧ s.failed = p.failed := by
  induction contents with
  | nil => intro p _ s hs; simp [zipLoop] at hs
  | cons e t ih =>
    intro p h s hs
    obtain ⟨u, c⟩ := e
    rw [zipLoop] at hs
    by_cases hc : c.isEmpty = true
    · rw [if_pos hc] at hs
      exact ih p (fun e he => h e (List.mem_cons_of_mem _ he)) s hs
    · rw [if_neg hc] at hs
      have hcne : c ≠ [] := by
        intro hnil
        rw [hnil] at hc
        simp at hc
      have hrej : archiveReject c = false := h (u, c) (List.mem_cons_self _ _) hcne
      rw [if_neg (by simp [hrej])] at hs
      dsimp only at hs
      rcases List.mem_cons.mp hs with rfl | hs
      · exact ⟨rfl, rfl, rfl, rfl, rfl⟩
      · have hrec := ih { p with successful := p.successful + 1 }
          (fun e he => h e (List.mem_cons_of_mem _ he)) s hs
        simpa using hrec

/-- The successful-counter reset of line 338, applied to the crawl's
final record as the archive phase starts. -/
def zipResetProg (resp : Nat → Nat → Resp) (seed : List Char)
    (hrefs : List (List Char)) : Progress :=
  { (linkCrawl resp seed hrefs).prog with successful := 0 }

/-- Counterexample to claim C1 as stated: the seed URL is fetched (line
430) before `total` is initialized (line 444), so the crawl of a
skip-pattern seed exposes an observable snapshot with `processed = 1 >
total = 0` right after the seed fetch's counter mutations. -/
theorem claim_C1_counterexample :
    ((scrape_url (fun _ _ => ⟨200, []⟩) "https://twitter.com/s".data []).preSnaps.any
      (fun s => decide (s.total < s.processed))) = true := by decide

/-- Claim C1 as amended: at every observable snapshot of a crawl,
`provisional_success + skipped + failed ≤ processed` holds; and
`processed ≤ total` holds at every snapshot from the initialization of
`total` (line 444) onward — but not before: during the seed fetch
`processed` can exceed the still-zero `total`. -/
theorem claim_C1_amended (resp : Nat → Nat → Resp) (seed : List Char)
    (hrefs : List (List Char)) :
    (∀ s ∈ (scrape_url resp seed hrefs).preSnaps ++
        (scrape_url resp seed hrefs).postSnaps, sumLe s) ∧
    (∀ s ∈ (scrape_url resp seed hrefs).postSnaps, s.processed ≤ s.total) := by
  have hinit : sumLe Progress.init := by simp [sumLe, Progress.init]
  obtain ⟨hgs, hgsum, hgt, hgp, hgsucc, hgc⟩ :=
    gmc_inv (resp 0) seed Progress.init hinit
  have hseed_eq : seedFetch resp seed =
      get_markdown_content (resp 0) seed Progress.init := rfl
  rw [← hseed_eq] at hgs hgsum hgt hgp hgsucc hgc
  have hgp1 : (seedFetch resp seed).prog.processed = 1 := by
    rw [hgp]
    rfl
  -- the record after the total/processed initialization
  have eT2 : (progAfterTotal resp seed hrefs).total =
      (discoverLinks hrefs).length + 1 := rfl
  have eT1 : (progAfterTotal resp seed hrefs).processed =
      (seedFetch resp seed).prog.processed := rfl
  have eR1 : (progAfterReset resp seed hrefs).processed = 1 := rfl
  have eR2 : (progAfterReset resp seed hrefs).total =
      (discoverLinks hrefs).length + 1 := rfl
  have hsumR : sumLe (progAfterReset resp seed hrefs) := by
    rw [sumLe] at hgsum ⊢
    have b1 : (progAfterReset resp seed hrefs).potential_successful =
        (seedFetch resp seed).prog.potential_successful := rfl
    have b2 : (progAfterReset resp seed hrefs).skipped =
        (seedFetch resp seed).prog.skipped := rfl
    have b3 : (progAfterReset resp seed hrefs).failed =
        (seedFetch resp seed).prog.failed := rfl
    rw [b1, b2, b3, eR1]
    rw [hgp1] at hgsum
    exact hgsum
  obtain ⟨hcs, hcsum, hct, hcp, hcres⟩ :=
    crawlLinks_inv resp (discoverLinks hrefs) 1 (progAfterReset resp seed hrefs)
      hsumR
  have hlc : linkCrawl resp seed hrefs =
      crawlLinks resp (discoverLinks hrefs) 1 (progAfterReset resp seed hrefs) :=
    rfl
  rw [← hlc] at hcs hcsum hct hcp hcres
  have hvalid : ∀ e ∈ crawlResults resp seed hrefs,
      e.2 ≠ [] → archiveReject e.2 = false := by
    intro e he
    rw [crawlResults] at he
    rcases List.mem_cons.mp he with rfl | he
    · exact hgc
    · exact hcres e he
  have hzp := zipLoop_inv (crawlResults resp seed hrefs)
    (zipResetProg resp seed hrefs) hvalid
  have harch : (archiveStep resp seed hrefs).1 =
      zipResetProg resp seed hrefs ::
        (zipLoop (crawlResults resp seed hrefs)
          (zipResetProg resp seed hrefs)).snaps := rfl
  have z1 : (zipResetProg resp seed hrefs).potential_successful =
      (linkCrawl resp seed hrefs).prog.potential_successful := rfl
  have z2 : (zipResetProg resp seed hrefs).skipped =
      (linkCrawl resp seed hrefs).prog.skipped := rfl
  have z3 : (zipResetProg resp seed hrefs).failed =
      (linkCrawl resp seed hrefs).prog.failed := rfl
  have z4 : (zipResetProg resp seed hrefs).processed =
      (linkCrawl resp seed hrefs).prog.processed := rfl
  have z5 : (zipResetProg resp seed hrefs).total =
      (linkCrawl resp seed hrefs).prog.total := rfl
  have hcp1 : (linkCrawl resp seed hrefs).prog.processed =
      1 + (discoverLinks hrefs).length := by
    rw [hcp, eR1]
  have hct1 : (linkCrawl resp seed hrefs).prog.total =
      (discoverLinks hrefs).length + 1 := by
    rw [hct, eR2]
  rw [scrape_url]
  dsimp only
  refine ⟨?_, ?_⟩
  · intro s hs
    rcases List.mem_append.mp hs with hs | hs
    · exact (hgs s hs).1
    · rcases List.mem_cons.mp hs with rfl | hs
      · -- the snapshot of line 444 (total set)
        rw [sumLe] at hgsum ⊢
        have b1 : (progAfterTotal resp seed hrefs).potential_successful =
            (seedFetch resp seed).prog.potential_successful := rfl
        have b2 : (progAfterTotal resp seed hrefs).skipped =
            (seedFetch resp seed).prog.skipped := rfl
        have b3 : (progAfterTotal resp seed hrefs).failed =
            (seedFetch resp seed).prog.failed := rfl
        rw [b1, b2, b3, eT1]
        exact hgsum
      · rcases List.mem_cons.mp hs with rfl | hs
        · exact hsumR
        · rcases List.mem_append.mp hs with hs | hs
          · exact (hcs s hs).1
          · rw [harch] at hs
            rcases List.mem_cons.mp hs with rfl | hs
            · rw [sumLe] at hcsum ⊢
              rw [z1, z2, z3, z4]
              exact hcsum
            · obtain ⟨ht, hpr, hpo, hsk, hf⟩ := hzp s hs
              rw [sumLe] at hcsum ⊢
              rw [hpo, hsk, hf, hpr, z1, z2, z3, z4]
              exact hcsum
  · intro s hs
    rcases List.mem_cons.mp hs with rfl | hs
    · rw [eT2, eT1, hgp1]
      omega
    · rcases List.mem_cons.mp hs with rfl | hs
      · rw [eR2, eR1]
        omega
      · rcases List.mem_append.mp hs with hs | hs
        · obtain ⟨_, h2, h3⟩ := hcs s hs
          rw [h2, eR2]
          rw [eR1] at h3
          omega
        · rw [harch] at hs
          rcases List.mem_cons.mp hs with rfl | hs
          · rw [z4, z5, hcp1, hct1]
            omega
          · obtain ⟨ht, hpr, _, _, _⟩ := hzp s hs
            rw [ht, hpr, z4, z5, hcp1, hct1]
            omega

/-- Witness for the amended C1: a concrete snapshot of a concrete crawl
satisfies the counter inequality. -/
theorem claim_C1_witness :
    sumLe ⟨0, 1, 0, 0, 0, 0⟩ :=
  (claim_C1_amended (fun _ _ => ⟨200, []⟩) "https://twitter.com/s".data []).1
    ⟨0, 1, 0, 0, 0, 0⟩ (by decide)

/-! ## Claim C10 -/

/-- Claim C10: when archive creation fails (its `Except` result is not
`ok` — for example because no content qualified), `scrape_url` still
returns the normal success response carrying the job's links and the
accumulated counts (the inner `except` of lines 467-469 swallows the
error); the job id is never stored in `results_tracker` (line 466 is
skipped), so a later download request for it fails with the 404 "Results
not found" of lines 397-398. -/
theorem claim_C10_swallowed_archive_error (resp : Nat → Nat → Resp)
    (seed : List Char) (hrefs : List (List Char)) (jobId : List Char)
    (h : (scrape_url resp seed hrefs).archive.isOk = false) :
    (scrape_url resp seed hrefs).response =
      ⟨seed :: (scrape_url resp seed hrefs).links,
        (scrape_url resp seed hrefs).finalCounts.successful,
        (scrape_url resp seed hrefs).finalCounts.skipped,
        (scrape_url resp seed hrefs).finalCounts.failed⟩ ∧
    (scrape_url resp seed hrefs).registered = false ∧
    download_results (registryOf (scrape_url resp seed hrefs) jobId) jobId =
      Except.error (404, "Results not found".data) := by
  have hreg : (scrape_url resp seed hrefs).registered = false := by
    have h' : (archiveStep resp seed hrefs).2.2.isOk = false := h
    rcases hA : (archiveStep resp seed hrefs).2.2 with msg | entries
    · show (archiveStep resp seed hrefs).2.2.toBool = false
      rw [hA]
      rfl
    · rw [hA] at h'
      simp [Except.isOk, Except.toBool] at h'
  refine ⟨rfl, hreg, ?_⟩
  rw [registryOf, if_neg (by simp [hreg])]
  rw [download_results]
  simp

/-- Witness for C10: a crawl of a skip-pattern seed with no links leaves
nothing archivable, so its archive step errors and the download 404s. -/
theorem claim_C10_witness :
    (scrape_url (fun _ _ => ⟨200, []⟩) "https://twitter.com/s2".data
      []).archive.isOk = false ∧
    download_results
      (registryOf (scrape_url (fun _ _ => ⟨200, []⟩) "https://twitter.com/s2".data [])
        "job-1".data) "job-1".data =
      Except.error (404, "Results not found".data) :=
  ⟨by decide,
    (claim_C10_swallowed_archive_error (fun _ _ => ⟨200, []⟩)
      "https://twitter.com/s2".data [] "job-1".data (by decide)).2.2⟩

/-! ## Claim C9 -/

/-- The retry loop never consults the progress record (or the
accumulated sleeps/snapshots) to decide anything: the returned content
and the number of requests issued depend only on the scripted responses
and the loop counters. This is the no-cancellation-check fact behind the
"in-flight fetches are not interrupted" clause. -/
theorem fetchLoop_indep (r : Nat → Resp) (u : List Char) :
    ∀ (fuel retries reqs : Nat) (sleeps sleeps' : List Nat) (p p' : Progress)
      (snaps snaps' : List Progress),
    (fetchLoop r u fuel retries reqs sleeps p snaps).content =
      (fetchLoop r u fuel retries reqs sleeps' p' snaps').content ∧
    (fetchLoop r u fuel retries reqs sleeps p snaps).requests =
      (fetchLoop r u fuel retries reqs sleeps' p' snaps').requests := by
  intro fuel
  induction fuel with
  | zero =>
    intro retries reqs sleeps sleeps' p p' snaps snaps'
    exact ⟨rfl, rfl⟩
  | succ fuel ih =>
    intro retries reqs sleeps sleeps' p p' snaps snaps'
    rw [fetchLoop, fetchLoop]
    by_cases h200 : (r reqs).status = 200
    · rw [if_pos h200, if_pos h200]
      by_cases hshort :
          (pyStrip (r reqs).body).length < 50 ∨
          (pyStrip (r reqs).body).count '\n' < 3
      · rw [if_pos hshort, if_pos hshort]
        by_cases hr2 : retries + 1 ≤ MAX_RETRIES
        · rw [if_pos hr2, if_pos hr2]
          exact ih _ _ _ _ _ _ _ _
        · rw [if_neg hr2, if_neg hr2]
          exact ⟨rfl, rfl⟩
      · rw [if_neg hshort, if_neg hshort]
        by_cases hmeta : metaOnly (pyStrip (r reqs).body) = true
        · rw [if_pos hmeta, if_pos hmeta]
          by_cases hr2 : retries + 1 ≤ MAX_RETRIES
          · rw [if_pos hr2, if_pos hr2]
            exact ih _ _ _ _ _ _ _ _
          · rw [if_neg hr2, if_neg hr2]
            exact ⟨rfl, rfl⟩
        · rw [if_neg hmeta, if_neg hmeta]
          exact ⟨rfl, rfl⟩
    · rw [if_neg h200, if_neg h200]
      by_cases h429 : (r reqs).status = 429
      · rw [if_pos h429, if_pos h429]
        by_cases hr2 : retries + 1 ≤ MAX_RETRIES
        · rw [if_pos hr2, if_pos hr2]
          exact ih _ _ _ _ _ _ _ _
        · rw [if_neg hr2, if_neg hr2]
          exact ⟨rfl, rfl⟩
      · rw [if_neg h429, if_neg h429]
        by_cases hr2 : retries + 1 ≤ MAX_RETRIES ∧
            retryTrigger (statusMsg (r reqs).status) = true
        · rw [if_pos hr2, if_pos hr2]
          exact ih _ _ _ _ _ _ _ _
        · rw [if_neg hr2, if_neg hr2]
          exact ⟨rfl, rfl⟩

/-- Claim C9 (the cancellation operation is modelled from the spec, see
`cancel_scraping`): cancelling a tracker key removes exactly that job's
progress record — the cancelled key no longer resolves, every other key
resolves to exactly the record it had before — and no other crawl state
is touched; in-flight fetches are not interrupted: a fetch's returned
content and its request count are independent of the progress record it
updates, so a fetch dispatched before the cancellation runs to
completion and merely has no surviving record to report into. -/
theorem claim_C9_cancel_frame (tracker : List (List Char × Progress))
    (tid : List Char) :
    (List.lookup tid (cancel_scraping tracker tid) = none) ∧
    (∀ k, k ≠ tid →
      List.lookup k (cancel_scraping tracker tid) = List.lookup k tracker) ∧
    (∀ (r : Nat → Resp) (u : List Char) (p p' : Progress),
      (get_markdown_content r u p).content = (get_markdown_content r u p').content ∧
      (get_markdown_content r u p).requests = (get_markdown_content r u p').requests) := by
  refine ⟨?_, ?_, ?_⟩
  · induction tracker with
    | nil => rfl
    | cons e t ih =>
      rw [cancel_scraping] at ih ⊢
      by_cases he : e.1 = tid
      · rw [List.filter_cons, if_neg (by simp [he])]
        exact ih
      · rw [List.filter_cons, if_pos (by simp [he])]
        rw [List.lookup_cons]
        have : (tid == e.1) = false := by
          simp
          exact fun hh => he hh.symm
        rw [this]
        exact ih
  · intro k hk
    induction tracker with
    | nil => rfl
    | cons e t ih =>
      rw [cancel_scraping] at ih ⊢
      by_cases he : e.1 = tid
      · rw [List.filter_cons, if_neg (by simp [he])]
        rw [List.lookup_cons]
        have : (k == e.1) = false := by
          simp
          rw [he]
          exact hk
        rw [this]
        exact ih
      · rw [List.filter_cons, if_pos (by simp [he])]
        rw [List.lookup_cons, List.lookup_cons]
        by_cases hke : (k == e.1) = true
        · rw [hke]
        · rw [Bool.eq_false_iff.mpr hke]
          exact ih
  · intro r u p p'
    rw [get_markdown_content, get_markdown_content]
    by_cases hs : should_skip_url u = true
    · rw [if_pos hs, if_pos hs]
      exact ⟨rfl, rfl⟩
    · rw [if_neg hs, if_neg hs]
      exact fetchLoop_indep r u (MAX_RETRIES + 1) 0 0 [] [] p p' [] []

/-- Witness for C9 at a concrete two-job tracker. -/
theorem claim_C9_witness :
    ("a".data ≠ "b".data) ∧
    List.lookup "a".data
        (cancel_scraping [("a".data, Progress.init), ("b".data, ⟨5, 2, 1, 0, 1, 0⟩)]
          "b".data) =
      List.lookup "a".data
        [("a".data, Progress.init), ("b".data, ⟨5, 2, 1, 0, 1, 0⟩)] :=
  ⟨by decide,
    (claim_C9_cancel_frame [("a".data, Progress.init), ("b".data, ⟨5, 2, 1, 0, 1, 0⟩)]
      "b".data).2.1 "a".data (by decide)⟩

/-! ## Claim C2 -/

/-- The trimmed window at one attempt. -/
def rlTrim (state : List ℚ) (now : ℚ) : List ℚ :=
  state.filter (fun t => decide (now - t < (RATE_PERIOD : ℚ)))

/-- `rlStep` always either refuses on a full window or admits on a
non-full one: the source's fall-through that would append despite a full
window when `sleep_time <= 0` is unreachable, because the head of the
trimmed list survived the trim with the same `now`, so
`now - t0 < RATE_PERIOD` and the computed sleep is positive. -/
theorem rlStep_eq (state : List ℚ) (now : ℚ) :
    rlStep state now =
      if RATE_LIMIT ≤ (rlTrim state now).length then (rlTrim state now, false)
      else (rlTrim state now ++ [now], true) := by
  rw [rlStep, rlTrim]
  by_cases hfull : RATE_LIMIT ≤
      (state.filter (fun t => decide (now - t < (RATE_PERIOD : ℚ)))).length
  · rw [if_pos hfull, if_pos hfull]
    rcases hl : state.filter (fun t => decide (now - t < (RATE_PERIOD : ℚ)))
        with _ | ⟨c, tl⟩
    · rw [hl] at hfull
      simp [RATE_LIMIT] at hfull
    · have hc : c ∈ state.filter (fun t => decide (now - t < (RATE_PERIOD : ℚ))) := by
        rw [hl]
        exact List.mem_cons_self _ _
      have hlt : now - c < (RATE_PERIOD : ℚ) :=
        of_decide_eq_true (List.mem_filter.mp hc).2
      show (if 0 < (RATE_PERIOD : ℚ) - (now - c) then (c :: tl, false)
        else (c :: tl ++ [now], true)) = (c :: tl, false)
      rw [if_pos (by linarith)]
  · rw [if_neg hfull, if_neg hfull]

/-- The per-admission check, read backwards: each admission saw fewer
than `RATE_LIMIT` earlier admissions still inside its window. -/
def chkRev : List ℚ → Prop
  | [] => True
  | a :: earlier =>
    earlier.countP (fun x => decide (a - x < (RATE_PERIOD : ℚ))) < RATE_LIMIT ∧
    chkRev earlier

def chk (l : List ℚ) : Prop := chkRev l.reverse

theorem chk_nil : chk [] := trivial

theorem chk_snoc (l : List ℚ) (a : ℚ) :
    chk (l ++ [a]) ↔
      (l.countP (fun x => decide (a - x < (RATE_PERIOD : ℚ))) < RATE_LIMIT ∧
       chk l) := by
  unfold chk
  rw [List.reverse_append]
  show chkRev (a :: l.reverse) ↔ _
  rw [chkRev, List.countP_reverse]

theorem runRL_inv (attempts : List ℚ) :
    ∀ (st adm : List ℚ) (b : ℚ),
      attempts.Pairwise (· ≤ ·) → (∀ x ∈ attempts, b ≤ x) →
      adm.Pairwise (· ≤ ·) → (∀ a ∈ adm, a ≤ b) →
      st = adm.filter (fun a => decide (b - a < (RATE_PERIOD : ℚ))) →
      chk adm →
      chk (runRL attempts st adm).2 ∧
      (runRL attempts st adm).2.Pairwise (· ≤ ·) := by
  induction attempts with
  | nil =>
    intro st adm b _ _ hpadm _ _ hchk
    exact ⟨hchk, hpadm⟩
  | cons now rest ih =>
    intro st adm b hpair hb hpadm hadmb hst hchk
    obtain ⟨hb_rest, hprest⟩ := List.pairwise_cons.mp hpair
    have hb_now : b ≤ now := hb now (List.mem_cons_self _ _)
    have hadm_now : ∀ a ∈ adm, a ≤ now := fun a ha =>
      le_trans (hadmb a ha) hb_now
    have htrim : rlTrim st now =
        adm.filter (fun a => decide (now - a < (RATE_PERIOD : ℚ))) := by
      rw [rlTrim, hst, List.filter_filter]
      apply List.filter_congr
      intro a ha
      by_cases hnw : now - a < (RATE_PERIOD : ℚ)
      · have hbw : b - a < (RATE_PERIOD : ℚ) := by linarith
        simp [hnw, hbw]
      · simp [hnw]
    rw [runRL]
    rw [rlStep_eq, htrim]
    by_cases hfull : RATE_LIMIT ≤
        (adm.filter (fun a => decide (now - a < (RATE_PERIOD : ℚ)))).length
    · rw [if_pos hfull]
      dsimp only
      exact ih _ adm now hprest hb_rest hpadm hadm_now rfl hchk
    · rw [if_neg hfull]
      dsimp only
      have hpadm2 : (adm ++ [now]).Pairwise (· ≤ ·) := by
        rw [List.pairwise_append]
        refine ⟨hpadm, List.pairwise_singleton _ _, ?_⟩
        intro x hx y hy
        rw [List.mem_singleton] at hy
        subst hy
        exact hadm_now x hx
      have hub2 : ∀ a ∈ adm ++ [now], a ≤ now := by
        intro a ha
        rcases List.mem_append.mp ha with ha | ha
        · exact hadm_now a ha
        · rw [List.mem_singleton] at ha
          exact le_of_eq ha
      have hst2 : adm.filter (fun a => decide (now - a < (RATE_PERIOD : ℚ))) ++ [now]
          = (adm ++ [now]).filter (fun a => decide (now - a < (RATE_PERIOD : ℚ))) := by
        rw [List.filter_append]
        congr 1
        have hnn : (now - now : ℚ) < (RATE_PERIOD : ℚ) := by
          rw [sub_self]
          norm_num [RATE_PERIOD]
        rw [List.filter_cons, if_pos (decide_eq_true hnn), List.filter_nil]
      have hchk2 : chk (adm ++ [now]) := by
        rw [chk_snoc]
        refine ⟨?_, hchk⟩
        rw [List.countP_eq_length_filter]
        omega
      exact ih _ (adm ++ [now]) now hprest hb_rest hpadm2 hub2 hst2 hchk2

theorem chk_window (l : List ℚ) :
    l.Pairwise (· ≤ ·) → chk l → ∀ t : ℚ,
    l.countP (fun a => decide (t < a) && decide (a ≤ t + (RATE_PERIOD : ℚ))) ≤
      RATE_LIMIT := by
  induction l using List.reverseRecOn with
  | nil =>
    intro _ _ t
    simp [RATE_LIMIT]
  | append_singleton l a ih =>
    intro hp hc t
    rw [chk_snoc] at hc
    obtain ⟨hcnt, hcl⟩ := hc
    obtain ⟨hpl, _, hcross⟩ := List.pairwise_append.mp hp
    have hla : ∀ x ∈ l, x ≤ a := by
      intro x hx
      exact hcross x hx a (List.mem_singleton.mpr rfl)
    rw [List.countP_append]
    by_cases ha : (decide (t < a) && decide (a ≤ t + (RATE_PERIOD : ℚ))) = true
    · rw [Bool.and_eq_true, decide_eq_true_eq, decide_eq_true_eq] at ha
      have h1 : l.countP (fun x => decide (t < x) && decide (x ≤ t + (RATE_PERIOD : ℚ)))
          ≤ l.countP (fun x => decide (a - x < (RATE_PERIOD : ℚ))) := by
        apply List.countP_mono_left
        intro x _ hpx
        rw [Bool.and_eq_true, decide_eq_true_eq, decide_eq_true_eq] at hpx
        apply decide_eq_true
        linarith [ha.2, hpx.1]
      have h2 : List.countP
          (fun x => decide (t < x) && decide (x ≤ t + (RATE_PERIOD : ℚ))) [a] ≤ 1 := by
        calc List.countP _ [a] ≤ ([a] : List ℚ).length := List.countP_le_length _
          _ = 1 := rfl
      omega
    · have haf : (fun x => decide (t < x) && decide (x ≤ t + (RATE_PERIOD : ℚ))) a
          = false := eq_false_of_ne_true ha
      have h2 : List.countP
          (fun x => decide (t < x) && decide (x ≤ t + (RATE_PERIOD : ℚ))) [a] = 0 := by
        show List.countP _ (a :: []) = 0
        rw [List.countP_cons, if_neg ha]
        rfl
      have h1 := ih hpl hcl t
      omega

/-- Claim C2: for every sequence of `acquire_rate_limit` attempt events
(times nondecreasing — one process clock; each trim-check-append pass is
atomic on the event loop, and a caller that would exceed the bound is
refused, sleeps, and re-evaluates from scratch as a later attempt), the
admitted times contain at most `RATE_LIMIT` elements in any sliding
half-open window `(t, t + RATE_PERIOD]`. -/
theorem claim_C2_sliding_window (attempts : List ℚ)
    (hs : attempts.Pairwise (· ≤ ·)) (t : ℚ) :
    ((runRL attempts [] []).2).countP
      (fun a => decide (t < a) && decide (a ≤ t + (RATE_PERIOD : ℚ))) ≤
      RATE_LIMIT := by
  rcases attempts with _ | ⟨a0, rest⟩
  · simp [runRL, RATE_LIMIT]
  · have hb : ∀ x ∈ a0 :: rest, a0 ≤ x := by
      intro x hx
      rcases List.mem_cons.mp hx with rfl | hx
      · exact le_refl x
      · exact (List.pairwise_cons.mp hs).1 x hx
    have h := runRL_inv (a0 :: rest) [] [] a0 hs hb List.Pairwise.nil
      (by simp) rfl chk_nil
    exact chk_window _ h.2 h.1 t

/-- Witness for C2: twenty simultaneous attempts at time 0 admit at most
`RATE_LIMIT` calls into the window `(-1, 59]`. -/
theorem claim_C2_witness :
    (List.replicate 20 (0 : ℚ)).Pairwise (· ≤ ·) ∧
    ((runRL (List.replicate 20 (0 : ℚ)) [] []).2).countP
      (fun a => decide ((-1 : ℚ) < a) && decide (a ≤ (-1 : ℚ) + (RATE_PERIOD : ℚ))) ≤
      RATE_LIMIT :=
  ⟨by decide,
    claim_C2_sliding_window (List.replicate 20 (0 : ℚ)) (by decide) (-1)⟩
